import Mathlib

/-!
Verification of the `tx_rx_channel` module of `src/ch.rs`: a blocking
multi-producer / single-consumer channel built from one lock-protected
mutable record (`SharedInnerMut`), a condition variable, and reference
counted handles (`Sender`, `Receiver`).

The lock makes every critical section of the source an atomic state
transformation, so the shallow embedding has two layers:

* pure functions on `SharedInnerMut` — one per critical section of the
  source (`send`, `Clone for Sender`, `Drop for Sender`, and one
  iteration of the `recv` loop);
* a labelled small-step relation `Step` on a `ChanState` that adds the
  ghost data the heap holds in the source (the number of live `Sender`
  handles, whether the `Receiver` handle is still live) and the
  consumer's position inside `recv` (outside / about to run a check
  iteration / blocked on the condition variable).
-/

namespace TxRxChannel

/-- The lock-protected mutable core of the channel
(`struct SharedInnerMut<T>` in `src/ch.rs`): the FIFO message queue
(`VecDeque<T>`, embedded as a list with front at the head), the count of
live senders, and the receiver-liveness flag. -/
structure SharedInnerMut (T : Type) where
  msg_queue : List T
  sender_cnt : Nat
  receiver_live : Bool
deriving DecidableEq, Repr

/-- `SharedInnerMut::new()`: empty queue, `sender_cnt = 1`,
`receiver_live = true`. -/
def SharedInnerMut.new (T : Type) : SharedInnerMut T :=
  { msg_queue := [], sender_cnt := 1, receiver_live := true }

/-- The result type of `Sender::send`: `Ok(())` or
`Err(NoMoreReceiverErr(v))` carrying the unsent value back. -/
inductive SendResult (T : Type) where
  | ok : SendResult T
  | noMoreReceiverErr : T → SendResult T
deriving DecidableEq, Repr

/-- `Sender::send(value)`: under the lock, `msg_queue.push_back(value)`;
after releasing the lock, `notify_one` (the notification is modelled in
the step relation). The source returns `Ok(())` unconditionally — it
never consults `receiver_live`. -/
def send {T : Type} (s : SharedInnerMut T) (v : T) :
    SharedInnerMut T × SendResult T :=
  ({ s with msg_queue := s.msg_queue ++ [v] }, SendResult.ok)

/-- Critical section of `impl Clone for Sender`:
`sender_cnt += 1` under the lock, before the new handle is returned. -/
def cloneSender {T : Type} (s : SharedInnerMut T) : SharedInnerMut T :=
  { s with sender_cnt := s.sender_cnt + 1 }

/-- Critical section of `impl Drop for Sender`:
`sender_cnt -= 1` under the lock (`usize` subtraction; every drop is
performed by a live handle, so the count is positive when it runs).
The `notify_one` fired when the count reaches zero is modelled in the
step relation. -/
def dropSender {T : Type} (s : SharedInnerMut T) : SharedInnerMut T :=
  { s with sender_cnt := s.sender_cnt - 1 }

/-- Outcome of one iteration of the loop in `Receiver::recv`:
return `Ok(msg)`, return `Err(NoMoreSenderErr)`, or block on the
condition variable. -/
inductive RecvResult (T : Type) where
  | ok : T → RecvResult T
  | noMoreSenderErr : RecvResult T
  | block : RecvResult T
deriving DecidableEq, Repr

/-- One iteration of the loop body of `Receiver::recv`, executed under
the lock: if `msg_queue.pop_front()` yields a message, return it;
otherwise, if `sender_cnt == 0`, return `Err(NoMoreSenderErr)`;
otherwise wait on the condition variable (`block`). -/
def recvCheck {T : Type} (s : SharedInnerMut T) :
    SharedInnerMut T × RecvResult T :=
  match s.msg_queue with
  | v :: rest => ({ s with msg_queue := rest }, RecvResult.ok v)
  | [] =>
    if s.sender_cnt = 0 then (s, RecvResult.noMoreSenderErr)
    else (s, RecvResult.block)

/-- A sequence of `send` calls, one per element of `vs` in order (any
mix of sender handles: the source's `send` touches only the shared
queue, so which handle sends is irrelevant). -/
def sendAll {T : Type} (s : SharedInnerMut T) (vs : List T) :
    SharedInnerMut T :=
  vs.foldl (fun st v => (send st v).1) s

/-- `n` consecutive `recv` calls with no interleaved operations: each
call returns on its first loop iteration (`recvCheck`); the list of the
`n` outcomes is collected in order. -/
def recvN {T : Type} : SharedInnerMut T → Nat → List (RecvResult T) × SharedInnerMut T
  | s, 0 => ([], s)
  | s, n + 1 =>
    let c := recvCheck s
    let r := recvN c.1 n
    (c.2 :: r.1, r.2)

/-- Where the single consumer is in its interaction with the channel:
outside any `recv` call, inside `recv` about to run an iteration of the
check loop (holding the lock), or blocked on `recv_wakeup_flag.wait`
(registered on the condition variable, lock released). -/
inductive Phase where
  | idle : Phase
  | checking : Phase
  | waiting : Phase
deriving DecidableEq, Repr

/-- Full channel state: the lock-protected record, plus the ghost data
the Rust heap carries — the number of live `Sender` handles, whether the
`Receiver` handle is still live — and the consumer's phase. -/
structure ChanState (T : Type) where
  shared : SharedInnerMut T
  liveSenders : Nat
  receiverHandle : Bool
  phase : Phase
deriving DecidableEq, Repr

/-- `channel()`: fresh shared state from `SharedInnerMut::new`, one live
`Sender` handle, one live `Receiver` handle, consumer outside `recv`.
The factory is a total function: it has no failure mode. -/
def channelInit (T : Type) : ChanState T :=
  { shared := SharedInnerMut.new T
    liveSenders := 1
    receiverHandle := true
    phase := Phase.idle }

/-- Transition labels of the channel system. -/
inductive Label (T : Type) where
  | send : T → Label T
  | clone : Label T
  | dropTx : Label T
  | dropRx : Label T
  | enterRecv : Label T
  | checkOk : T → Label T
  | checkErr : Label T
  | checkWait : Label T
  | spuriousWake : Label T
deriving DecidableEq, Repr

/-- Labelled small-step relation of the channel. Each step is one
critical section of the source (every access to `SharedInnerMut` in
`src/ch.rs` holds the lock), so steps are atomic:

* `send`: a live sender runs `Sender::send`; the trailing `notify_one`
  wakes the consumer if it is blocked on the condition variable.
* `clone` / `dropTx`: a live sender handle is cloned / dropped. `Drop
  for Sender` fires `notify_one` only when the decremented count is
  zero.
* `dropRx`: the `Receiver` handle is dropped. The source has no
  `Drop impl for Receiver`, so only the handle disappears — the shared
  state is untouched. (`recv` borrows the receiver, so the drop happens
  with the consumer outside `recv`.)
* `enterRecv`: the live receiver calls `recv` and reaches the loop.
* `checkOk` / `checkErr` / `checkWait`: one iteration of the `recv`
  loop, under the lock: return a message, return `NoMoreSenderErr`, or
  atomically release the lock and wait on the condition variable.
* `spuriousWake`: `Condvar::wait` may return spuriously; the woken
  consumer re-runs the check loop. -/
inductive Step {T : Type} : ChanState T → Label T → ChanState T → Prop where
  | send (s : ChanState T) (v : T) (h : 0 < s.liveSenders) :
      Step s (Label.send v)
        { s with shared := (send s.shared v).1
                 phase := if s.phase = Phase.waiting then Phase.checking else s.phase }
  | clone (s : ChanState T) (h : 0 < s.liveSenders) :
      Step s Label.clone
        { s with shared := cloneSender s.shared
                 liveSenders := s.liveSenders + 1 }
  | dropTx (s : ChanState T) (h : 0 < s.liveSenders) :
      Step s Label.dropTx
        { s with shared := dropSender s.shared
                 liveSenders := s.liveSenders - 1
                 phase := if (dropSender s.shared).sender_cnt = 0 ∧ s.phase = Phase.waiting
                          then Phase.checking else s.phase }
  | dropRx (s : ChanState T) (h : s.receiverHandle = true) (hp : s.phase = Phase.idle) :
      Step s Label.dropRx { s with receiverHandle := false }
  | enterRecv (s : ChanState T) (h : s.receiverHandle = true) (hp : s.phase = Phase.idle) :
      Step s Label.enterRecv { s with phase := Phase.checking }
  | checkOk (s : ChanState T) (v : T) (hp : s.phase = Phase.checking)
      (hc : (recvCheck s.shared).2 = RecvResult.ok v) :
      Step s (Label.checkOk v)
        { s with shared := (recvCheck s.shared).1, phase := Phase.idle }
  | checkErr (s : ChanState T) (hp : s.phase = Phase.checking)
      (hc : (recvCheck s.shared).2 = RecvResult.noMoreSenderErr) :
      Step s Label.checkErr { s with phase := Phase.idle }
  | checkWait (s : ChanState T) (hp : s.phase = Phase.checking)
      (hc : (recvCheck s.shared).2 = RecvResult.block) :
      Step s Label.checkWait { s with phase := Phase.waiting }
  | spuriousWake (s : ChanState T) (hp : s.phase = Phase.waiting) :
      Step s Label.spuriousWake { s with phase := Phase.checking }

/-- Some step with some label. -/
def StepAny {T : Type} (s s' : ChanState T) : Prop :=
  ∃ l, Step s l s'

/-- States reachable from the fresh channel produced by `channel()`. -/
def Reachable {T : Type} (s : ChanState T) : Prop :=
  Relation.ReflTransGen StepAny (channelInit T) s

/-! ## Helper lemmas -/

theorem sendAll_cons {T : Type} (s : SharedInnerMut T) (v : T) (vs : List T) :
    sendAll s (v :: vs) = sendAll { s with msg_queue := s.msg_queue ++ [v] } vs := rfl

theorem sendAll_msg_queue {T : Type} (vs : List T) :
    ∀ s : SharedInnerMut T, (sendAll s vs).msg_queue = s.msg_queue ++ vs := by
  induction vs with
  | nil => intro s; simp [sendAll]
  | cons v vs ih =>
    intro s
    rw [sendAll_cons, ih]
    simp

theorem recvN_full {T : Type} (vs : List T) :
    ∀ s : SharedInnerMut T, s.msg_queue = vs →
      (recvN s vs.length).1 = vs.map RecvResult.ok := by
  induction vs with
  | nil => intro s _; rfl
  | cons v vs ih =>
    intro s h
    have hc : recvCheck s = ({ s with msg_queue := vs }, RecvResult.ok v) := by
      simp [recvCheck, h]
    simp only [List.length_cons, recvN, hc, List.map_cons, List.cons.injEq, true_and]
    exact ih _ rfl

theorem recvCheck_sender_cnt {T : Type} (s : SharedInnerMut T) :
    (recvCheck s).1.sender_cnt = s.sender_cnt := by
  rcases hq : s.msg_queue with _ | ⟨v, rest⟩
  · simp only [recvCheck, hq]
    split <;> rfl
  · simp [recvCheck, hq]

theorem recvCheck_receiver_live {T : Type} (s : SharedInnerMut T) :
    (recvCheck s).1.receiver_live = s.receiver_live := by
  rcases hq : s.msg_queue with _ | ⟨v, rest⟩
  · simp only [recvCheck, hq]
    split <;> rfl
  · simp [recvCheck, hq]

theorem recvCheck_block_iff {T : Type} (s : SharedInnerMut T) :
    (recvCheck s).2 = RecvResult.block ↔
      s.msg_queue = [] ∧ s.sender_cnt ≠ 0 := by
  rcases hq : s.msg_queue with _ | ⟨v, rest⟩
  · simp only [recvCheck, hq]
    split <;> simp_all
  · simp [recvCheck, hq]

theorem recvCheck_err_iff {T : Type} (s : SharedInnerMut T) :
    (recvCheck s).2 = RecvResult.noMoreSenderErr ↔
      s.msg_queue = [] ∧ s.sender_cnt = 0 := by
  rcases hq : s.msg_queue with _ | ⟨v, rest⟩
  · simp only [recvCheck, hq]
    split <;> simp_all
  · simp [recvCheck, hq]

/-- Transport a step along an equality of target states (useful to land on a
literal record after the successor expression has been computed). -/
theorem step_cast {T : Type} {s s' s'' : ChanState T} {l : Label T}
    (h : Step s l s') (e : s' = s'') : Step s l s'' := e ▸ h

/-- The inductive invariant of the channel system: the sender count stored in
the shared state tracks the number of live sender handles, the
`receiver_live` flag is never written after initialization, and whenever the
consumer is blocked on the condition variable the queue is empty and the
sender count is positive (the check and the wait-entry are one atomic
critical section, so the consumer never waits when data or exhaustion is
already observable). -/
def Inv {T : Type} (s : ChanState T) : Prop :=
  s.shared.sender_cnt = s.liveSenders ∧
  s.shared.receiver_live = true ∧
  (s.phase = Phase.waiting → s.shared.msg_queue = [] ∧ 0 < s.shared.sender_cnt)

theorem reachable_inv {T : Type} {s : ChanState T} (h : Reachable s) : Inv s := by
  induction h with
  | refl =>
    refine ⟨rfl, rfl, fun hp => ?_⟩
    exact Phase.noConfusion hp
  | @tail b c _ hstep ih =>
    obtain ⟨l, hs⟩ := hstep
    obtain ⟨ih1, ih2, ih3⟩ := ih
    cases hs with
    | send v h =>
      refine ⟨ih1, ih2, fun hp => ?_⟩
      by_cases hw : b.phase = Phase.waiting
      · simp only [hw, if_pos] at hp
        exact Phase.noConfusion hp
      · simp only [if_neg hw] at hp
        exact absurd hp hw
    | clone h =>
      refine ⟨?_, ih2, fun hp => ?_⟩
      · show b.shared.sender_cnt + 1 = b.liveSenders + 1
        omega
      · obtain ⟨hq, -⟩ := ih3 hp
        exact ⟨hq, Nat.succ_pos _⟩
    | dropTx h =>
      refine ⟨?_, ih2, fun hp => ?_⟩
      · show b.shared.sender_cnt - 1 = b.liveSenders - 1
        omega
      · by_cases hA : (dropSender b.shared).sender_cnt = 0 ∧ b.phase = Phase.waiting
        · simp only [if_pos hA] at hp
          exact Phase.noConfusion hp
        · simp only [if_neg hA] at hp
          obtain ⟨hq, -⟩ := ih3 hp
          have hne : (dropSender b.shared).sender_cnt ≠ 0 := fun h0 => hA ⟨h0, hp⟩
          exact ⟨hq, Nat.pos_of_ne_zero hne⟩
    | dropRx h hp' =>
      exact ⟨ih1, ih2, ih3⟩
    | enterRecv h hp' =>
      exact ⟨ih1, ih2, fun hp => Phase.noConfusion hp⟩
    | checkOk v hp' hc =>
      refine ⟨?_, ?_, fun hp => Phase.noConfusion hp⟩
      · rw [recvCheck_sender_cnt]; exact ih1
      · rw [recvCheck_receiver_live]; exact ih2
    | checkErr hp' hc =>
      exact ⟨ih1, ih2, fun hp => Phase.noConfusion hp⟩
    | checkWait hp' hc =>
      refine ⟨ih1, ih2, fun _ => ?_⟩
      have hb := (recvCheck_block_iff b.shared).1 hc
      exact ⟨hb.1, Nat.pos_of_ne_zero hb.2⟩
    | spuriousWake hp' =>
      exact ⟨ih1, ih2, fun hp => Phase.noConfusion hp⟩

/-! ## Claim theorems -/

/-- C8: `channel()` returns one producer handle and one consumer handle over a
freshly allocated shared state with an empty queue, `sender_cnt = 1` and
`receiver_live = true`; the factory is a total function with no failure mode. -/
theorem channel_fresh_state (T : Type) :
    (channelInit T).shared.msg_queue = [] ∧
    (channelInit T).shared.sender_cnt = 1 ∧
    (channelInit T).shared.receiver_live = true ∧
    (channelInit T).liveSenders = 1 ∧
    (channelInit T).receiverHandle = true :=
  ⟨rfl, rfl, rfl, rfl, rfl⟩

/-- Witness for C8 at element type `Nat`. -/
theorem channel_fresh_state_witness :
    (channelInit Nat).shared.msg_queue = [] ∧
    (channelInit Nat).shared.sender_cnt = 1 ∧
    (channelInit Nat).shared.receiver_live = true ∧
    (channelInit Nat).liveSenders = 1 ∧
    (channelInit Nat).receiverHandle = true :=
  channel_fresh_state Nat

/-- C1 (code bug): the source's `Sender::send` returns `Ok(())` unconditionally
— there is no code path producing `NoMoreReceiverErr`, and `receiver_live` is
never consulted. In particular, on the state reached by dropping the `Receiver`
of a fresh channel (the scenario of the repository's own test
`tx_err_for_no_rx`, which asserts `send(42).unwrap_err().0 == 42`), `send 42`
still returns `Ok`, so that test fails. -/
theorem send_always_ok :
    (∀ (s : SharedInnerMut Nat) (v : Nat), (send s v).2 = SendResult.ok) ∧
    (∃ s : ChanState Nat, Step (channelInit Nat) Label.dropRx s ∧
        s.receiverHandle = false ∧ (send s.shared 42).2 = SendResult.ok) :=
  ⟨fun _ _ => rfl,
   ⟨{ channelInit Nat with receiverHandle := false },
    Step.dropRx (channelInit Nat) rfl rfl, rfl, rfl⟩⟩

/-- C7 (code bug): the source has no `Drop` implementation for `Receiver`, so
discarding the consumer handle leaves the shared state untouched: after the
`dropRx` step from a fresh channel, `receiver_live` is still `true` (the claim
says it becomes `false`) and a subsequent `send 7` still returns `Ok` (the
claim, and the repository's test `tx_err_for_no_rx`, say it must fail). Only
the claim's "does not signal the wake condition" part matches the code. -/
theorem dropRx_leaves_shared_untouched :
    ∃ s : ChanState Nat, Step (channelInit Nat) Label.dropRx s ∧
      s.shared = (channelInit Nat).shared ∧
      s.shared.receiver_live = true ∧
      s.phase = (channelInit Nat).phase ∧
      (send s.shared 7).2 = SendResult.ok :=
  ⟨{ channelInit Nat with receiverHandle := false },
   Step.dropRx (channelInit Nat) rfl rfl, rfl, rfl, rfl, rfl⟩

/-- C9: whenever the queue is non-empty, one iteration of the `recv` loop
returns the front element — the sender count is not consulted on that path —
and `NoMoreSenderErr` can only be returned once the queue is empty. -/
theorem recv_drains_before_err {T : Type} (s : SharedInnerMut T) :
    (∀ (v : T) (rest : List T), s.msg_queue = v :: rest →
        recvCheck s = ({ s with msg_queue := rest }, RecvResult.ok v)) ∧
    ((recvCheck s).2 = RecvResult.noMoreSenderErr → s.msg_queue = []) := by
  constructor
  · intro v rest h
    simp [recvCheck, h]
  · intro h
    match hq : s.msg_queue with
    | [] => rfl
    | v :: rest => simp [recvCheck, hq] at h

/-- Witness for C9: with queue `[5, 9]` and `sender_cnt = 0`, `recvCheck`
still returns `Ok 5` and leaves `[9]`. -/
theorem recv_drains_before_err_witness :
    recvCheck ({ msg_queue := [5, 9], sender_cnt := 0, receiver_live := true } :
        SharedInnerMut Nat)
      = ({ msg_queue := [9], sender_cnt := 0, receiver_live := true }, RecvResult.ok 5) :=
  (recv_drains_before_err _).1 5 [9] rfl

/-- C3 (FIFO): starting from an empty queue, after sends of `v1, …, vn` (from
any mix of sender handles — `send` only appends to the shared queue), `n`
consecutive `recv` calls with nothing interleaved return
`Ok v1, Ok v2, …, Ok vn` in exactly that order. -/
theorem fifo_order {T : Type} (s : SharedInnerMut T) (vs : List T)
    (h : s.msg_queue = []) :
    (recvN (sendAll s vs) vs.length).1 = vs.map RecvResult.ok := by
  apply recvN_full
  rw [sendAll_msg_queue, h]
  rfl

/-- Witness for C3: sending `3, 1, 2` on a fresh channel and receiving three
times yields `Ok 3, Ok 1, Ok 2`. -/
theorem fifo_order_witness :
    (recvN (sendAll (SharedInnerMut.new Nat) [3, 1, 2]) 3).1
      = [RecvResult.ok 3, RecvResult.ok 1, RecvResult.ok 2] :=
  fifo_order (SharedInnerMut.new Nat) [3, 1, 2] rfl

theorem cloneSender_iterate_cnt {T : Type} (k : Nat) (s : SharedInnerMut T) :
    (cloneSender^[k] s).sender_cnt = s.sender_cnt + k := by
  induction k with
  | zero => rfl
  | succ k ih =>
    rw [Function.iterate_succ_apply']
    show (cloneSender^[k] s).sender_cnt + 1 = s.sender_cnt + (k + 1)
    omega

theorem dropSender_iterate_cnt {T : Type} (k : Nat) (s : SharedInnerMut T) :
    (dropSender^[k] s).sender_cnt = s.sender_cnt - k := by
  induction k with
  | zero => rfl
  | succ k ih =>
    rw [Function.iterate_succ_apply']
    show (dropSender^[k] s).sender_cnt - 1 = s.sender_cnt - (k + 1)
    omega

theorem cloneSender_iterate_queue {T : Type} (k : Nat) (s : SharedInnerMut T) :
    (cloneSender^[k] s).msg_queue = s.msg_queue := by
  induction k with
  | zero => rfl
  | succ k ih => rw [Function.iterate_succ_apply']; exact ih

theorem dropSender_iterate_queue {T : Type} (k : Nat) (s : SharedInnerMut T) :
    (dropSender^[k] s).msg_queue = s.msg_queue := by
  induction k with
  | zero => rfl
  | succ k ih => rw [Function.iterate_succ_apply']; exact ih

/-- C5: the sender count tracks the live producer handles exactly: cloning
adds exactly one and dropping removes exactly one (under the lock), in every
reachable state `sender_cnt` equals the number of live sender handles, and —
starting from the single handle of a fresh channel — `k` duplications
followed by `k` discards leave the count positive, while `k + 1` discards
make `recvCheck` on the (still empty) queue return `NoMoreSenderErr`. -/
theorem producer_count_tracks_handles (T : Type) :
    (∀ s : SharedInnerMut T, (cloneSender s).sender_cnt = s.sender_cnt + 1) ∧
    (∀ s : SharedInnerMut T, (dropSender s).sender_cnt = s.sender_cnt - 1) ∧
    (∀ s : ChanState T, Reachable s → s.shared.sender_cnt = s.liveSenders) ∧
    (∀ k : Nat,
      0 < (dropSender^[k] (cloneSender^[k] (SharedInnerMut.new T))).sender_cnt) ∧
    (∀ k : Nat,
      (recvCheck (dropSender^[k + 1] (cloneSender^[k] (SharedInnerMut.new T)))).2
        = RecvResult.noMoreSenderErr) := by
  refine ⟨fun s => rfl, fun s => rfl, fun s h => (reachable_inv h).1,
    fun k => ?_, fun k => ?_⟩
  · rw [dropSender_iterate_cnt, cloneSender_iterate_cnt]
    show 0 < 1 + k - k
    omega
  · rw [recvCheck_err_iff]
    refine ⟨?_, ?_⟩
    · rw [dropSender_iterate_queue, cloneSender_iterate_queue]
      rfl
    · rw [dropSender_iterate_cnt, cloneSender_iterate_cnt]
      show 1 + k - (k + 1) = 0
      omega

/-- Witness for C5 at `k = 2`: two clones and two drops leave the count
positive; two clones and three drops yield `NoMoreSenderErr`; the fresh
channel satisfies the count invariant. -/
theorem producer_count_tracks_handles_witness :
    (cloneSender (SharedInnerMut.new Nat)).sender_cnt = 2 ∧
    (channelInit Nat).shared.sender_cnt = (channelInit Nat).liveSenders ∧
    0 < (dropSender^[2] (cloneSender^[2] (SharedInnerMut.new Nat))).sender_cnt ∧
    (recvCheck (dropSender^[3] (cloneSender^[2] (SharedInnerMut.new Nat)))).2
      = RecvResult.noMoreSenderErr :=
  ⟨(producer_count_tracks_handles Nat).1 (SharedInnerMut.new Nat),
   (producer_count_tracks_handles Nat).2.2.1 _ Relation.ReflTransGen.refl,
   (producer_count_tracks_handles Nat).2.2.2.1 2,
   (producer_count_tracks_handles Nat).2.2.2.2 2⟩

/-- C6: once the sender count reaches zero it never becomes positive again:
every state reachable from a reachable state whose count is zero still has
count zero (cloning requires a live handle, and with the count-tracking
invariant a zero count means no handle is left to clone). -/
theorem sender_cnt_zero_forever {T : Type} (s s' : ChanState T)
    (hr : Reachable s) (h0 : s.shared.sender_cnt = 0)
    (hsteps : Relation.ReflTransGen StepAny s s') :
    s'.shared.sender_cnt = 0 := by
  have hl : s.liveSenders = 0 := by
    have h1 := (reachable_inv hr).1
    omega
  suffices h : s'.shared.sender_cnt = 0 ∧ s'.liveSenders = 0 from h.1
  induction hsteps with
  | refl => exact ⟨h0, hl⟩
  | @tail b c _ hstep ih =>
    obtain ⟨l, hs⟩ := hstep
    cases hs with
    | send v h => exact absurd (ih.2 ▸ h) (Nat.lt_irrefl 0)
    | clone h => exact absurd (ih.2 ▸ h) (Nat.lt_irrefl 0)
    | dropTx h => exact absurd (ih.2 ▸ h) (Nat.lt_irrefl 0)
    | dropRx h hp' => exact ih
    | enterRecv h hp' => exact ih
    | checkOk v hp' hc =>
      exact ⟨by rw [recvCheck_sender_cnt]; exact ih.1, ih.2⟩
    | checkErr hp' hc => exact ih
    | checkWait hp' hc => exact ih
    | spuriousWake hp' => exact ih

/-- Witness for C6: dropping the only sender of a fresh channel reaches a
state with count zero, and it stays zero (here along the empty suffix). -/
theorem sender_cnt_zero_forever_witness :
    ({ shared := { msg_queue := [], sender_cnt := 0, receiver_live := true },
       liveSenders := 0, receiverHandle := true,
       phase := Phase.idle } : ChanState Nat).shared.sender_cnt = 0 :=
  sender_cnt_zero_forever _ _
    (Relation.ReflTransGen.single
      ⟨Label.dropTx,
       step_cast (Step.dropTx (channelInit Nat) (by decide)) (by decide)⟩)
    rfl Relation.ReflTransGen.refl

/-- C4: one iteration of the `recv` loop returns `NoMoreSenderErr` exactly
when the queue is empty and the sender count is zero, and the outcome is
terminal: from any reachable state in which `recvCheck` returns
`NoMoreSenderErr`, every later state still has `recvCheck` returning
`NoMoreSenderErr` (no step can refill the queue or revive a sender). -/
theorem no_more_senders_exact_and_terminal (T : Type) :
    (∀ s : SharedInnerMut T,
      (recvCheck s).2 = RecvResult.noMoreSenderErr ↔
        s.msg_queue = [] ∧ s.sender_cnt = 0) ∧
    (∀ s s' : ChanState T, Reachable s →
      (recvCheck s.shared).2 = RecvResult.noMoreSenderErr →
      Relation.ReflTransGen StepAny s s' →
      (recvCheck s'.shared).2 = RecvResult.noMoreSenderErr) := by
  refine ⟨recvCheck_err_iff, fun s s' hr herr hsteps => ?_⟩
  obtain ⟨hq, hc0⟩ := (recvCheck_err_iff s.shared).1 herr
  have hl : s.liveSenders = 0 := by
    have h1 := (reachable_inv hr).1
    omega
  rw [recvCheck_err_iff]
  suffices h : s'.shared.msg_queue = [] ∧ s'.shared.sender_cnt = 0 ∧
      s'.liveSenders = 0 from ⟨h.1, h.2.1⟩
  induction hsteps with
  | refl => exact ⟨hq, hc0, hl⟩
  | @tail b c _ hstep ih =>
    obtain ⟨l, hs⟩ := hstep
    cases hs with
    | send v h => exact absurd (ih.2.2 ▸ h) (Nat.lt_irrefl 0)
    | clone h => exact absurd (ih.2.2 ▸ h) (Nat.lt_irrefl 0)
    | dropTx h => exact absurd (ih.2.2 ▸ h) (Nat.lt_irrefl 0)
    | dropRx h hp' => exact ih
    | enterRecv h hp' => exact ih
    | checkOk v hp' hc =>
      have he := (recvCheck_err_iff b.shared).2 ⟨ih.1, ih.2.1⟩
      rw [hc] at he
      exact RecvResult.noConfusion he
    | checkErr hp' hc => exact ih
    | checkWait hp' hc =>
      have he := (recvCheck_err_iff b.shared).2 ⟨ih.1, ih.2.1⟩
      rw [hc] at he
      exact RecvResult.noConfusion he
    | spuriousWake hp' => exact ih

/-- Witness for C4: after the only sender of a fresh channel is dropped,
`recvCheck` returns `NoMoreSenderErr`, and still does along the empty
suffix of steps. -/
theorem no_more_senders_exact_and_terminal_witness :
    (recvCheck ({ msg_queue := [], sender_cnt := 0, receiver_live := true } :
        SharedInnerMut Nat)).2 = RecvResult.noMoreSenderErr :=
  (no_more_senders_exact_and_terminal Nat).2
    ({ shared := { msg_queue := [], sender_cnt := 0, receiver_live := true },
       liveSenders := 0, receiverHandle := true, phase := Phase.idle })
    _
    (Relation.ReflTransGen.single
      ⟨Label.dropTx,
       step_cast (Step.dropTx (channelInit Nat) (by decide)) (by decide)⟩)
    rfl Relation.ReflTransGen.refl

/-- C10: `receiver_live` is initialized to `true` by the factory, no step of
the system ever writes it (in particular the source has no `Drop`
implementation for `Receiver`), and hence it is `true` in every reachable
state. -/
theorem receiver_live_never_written {T : Type} :
    ((channelInit T).shared.receiver_live = true) ∧
    (∀ (s s' : ChanState T) (l : Label T), Step s l s' →
        s'.shared.receiver_live = s.shared.receiver_live) ∧
    (∀ s : ChanState T, Reachable s → s.shared.receiver_live = true) := by
  refine ⟨rfl, fun s s' l hs => ?_, fun s h => (reachable_inv h).2.1⟩
  cases hs with
  | send v h => rfl
  | clone h => rfl
  | dropTx h => rfl
  | dropRx h hp' => rfl
  | enterRecv h hp' => rfl
  | checkOk v hp' hc => exact recvCheck_receiver_live s.shared
  | checkErr hp' hc => rfl
  | checkWait hp' hc => rfl
  | spuriousWake hp' => rfl

/-- Witness for C10: even after the `Receiver` handle is dropped, the flag in
the shared state is still `true`. -/
theorem receiver_live_never_written_witness :
    ({ channelInit Nat with receiverHandle := false } :
        ChanState Nat).shared.receiver_live = true :=
  receiver_live_never_written.2.2 _
    (Relation.ReflTransGen.single
      ⟨Label.dropRx, Step.dropRx (channelInit Nat) rfl rfl⟩)

/-- C2 (no missed wakeup): in the embedding, the emptiness/exhaustion check
and the wait-entry of `recv` are a single atomic critical section
(`checkWait` requires the check to have observed `block` under the lock), so
the race window of the claim does not exist; consequently, whenever the
consumer is blocked on the condition variable in a reachable state, a `send`
step wakes it and its next check iteration returns exactly the sent value,
and the drop of the last sender wakes it and its next check iteration
returns `NoMoreSenderErr`. -/
theorem no_missed_wakeup {T : Type} (s s' : ChanState T) (hr : Reachable s)
    (hw : s.phase = Phase.waiting) :
    (∀ v : T, Step s (Label.send v) s' →
        s'.phase = Phase.checking ∧
        (recvCheck s'.shared).2 = RecvResult.ok v) ∧
    (s.liveSenders = 1 → Step s Label.dropTx s' →
        s'.phase = Phase.checking ∧
        (recvCheck s'.shared).2 = RecvResult.noMoreSenderErr) := by
  obtain ⟨hcnt, -, hwait⟩ := reachable_inv hr
  obtain ⟨hq, hpos⟩ := hwait hw
  constructor
  · intro v hstep
    cases hstep with
    | send h =>
      refine ⟨by simp [hw], ?_⟩
      simp [send, recvCheck, hq]
  · intro hone hstep
    cases hstep with
    | dropTx h =>
      have hc1 : s.shared.sender_cnt = 1 := by omega
      have hd : (dropSender s.shared).sender_cnt = 0 := by
        simp [dropSender, hc1]
      refine ⟨by simp [hd, hw], ?_⟩
      rw [recvCheck_err_iff]
      exact ⟨hq, hd⟩

/-- Witness for C2: the consumer of a fresh channel enters `recv`, finds the
queue empty with a live sender, and blocks; a `send 42` then wakes it and
its next check returns `Ok 42`. -/
theorem no_missed_wakeup_witness :
    (⟨⟨[42], 1, true⟩, 1, true, Phase.checking⟩ : ChanState Nat).phase
        = Phase.checking ∧
    (recvCheck (⟨⟨[42], 1, true⟩, 1, true,
        Phase.checking⟩ : ChanState Nat).shared).2 = RecvResult.ok 42 :=
  (no_missed_wakeup
      (⟨⟨[], 1, true⟩, 1, true, Phase.waiting⟩ : ChanState Nat)
      (⟨⟨[42], 1, true⟩, 1, true, Phase.checking⟩ : ChanState Nat)
      (Relation.ReflTransGen.tail
        (Relation.ReflTransGen.single
          ⟨Label.enterRecv,
           step_cast (Step.enterRecv (channelInit Nat) rfl rfl) (by decide)⟩)
        ⟨Label.checkWait,
         step_cast
           (Step.checkWait (⟨⟨[], 1, true⟩, 1, true, Phase.checking⟩ :
              ChanState Nat) rfl (by decide))
           (by decide)⟩)
      rfl).1 42
    (step_cast
      (Step.send (⟨⟨[], 1, true⟩, 1, true, Phase.waiting⟩ : ChanState Nat) 42
        (by decide))
      (by decide))

end TxRxChannel
